import Mathlib

/-!
Verification of the entry data-access and search layer of the image-analyzer
repository.

The embedding translates, from the Python sources:
  - components/db.py : insert_data, update_entry, delete_entry, get_entry_by_id,
    search_entries, get_all_categories, get_all_tags, together with the SQLite
    entries table they operate on;
  - streamlit_app.py / app.py / streamlit_app_enhanced.py : get_entry_field and
    its three field-position tables;
  - components/image_processor.py : analyze_image, extract_categories_from_text,
    extract_caption_from_text.

Modelling conventions:
  - The SQLite entries table is a list of Entry records inside a DB state; text
    columns are Option String (None models SQL NULL), the boolean columns
    is_favorite and is_archived are Option Int because SQLite stores Python
    booleans as the integers 0 and 1 and the columns are nullable.
  - Timestamps are naturals ordered chronologically; the current time is passed
    explicitly to each operation that reads the clock.
  - The file system is the set of stored upload paths inside the DB state; the
    outcome of the operating-system file removal in delete_entry is an explicit
    boolean parameter, since the code swallows removal failures.
  - SQLite LIKE is modelled exactly: percent matches any sequence, underscore
    matches one character, and letter comparison folds ASCII case only.
  - Python string helpers (split, strip, lower, slicing, rsplit) are translated
    on character lists so that every definition evaluates inside the kernel.
  - The external Gemini calls in analyze_image are opaque: their outcomes are
    parameters of type Except String String (error models a raised exception).
-/

/-- The ASCII upper-case to lower-case letter table. -/
def asciiCaseTable : List (Char × Char) :=
  [('A', 'a'), ('B', 'b'), ('C', 'c'), ('D', 'd'), ('E', 'e'), ('F', 'f'),
   ('G', 'g'), ('H', 'h'), ('I', 'i'), ('J', 'j'), ('K', 'k'), ('L', 'l'),
   ('M', 'm'), ('N', 'n'), ('O', 'o'), ('P', 'p'), ('Q', 'q'), ('R', 'r'),
   ('S', 's'), ('T', 't'), ('U', 'u'), ('V', 'v'), ('W', 'w'), ('X', 'x'),
   ('Y', 'y'), ('Z', 'z')]

/-- ASCII lower-casing of one character, written as an explicit table so that
every fact about it is by finite case analysis; this is the case folding
SQLite applies in LIKE and the effect of Python str.lower on ASCII text. -/
def lowerChar (c : Char) : Char :=
  match asciiCaseTable.find? (fun p => p.1 == c) with
  | some p => p.2
  | none => c

/-- Lower-cased character list of a string. -/
def lowerList (s : String) : List Char := s.toList.map lowerChar

/-- Python s.split(sep) for a one-character separator, on character lists:
the split of the empty list is the one empty piece, exactly as in Python. -/
def splitChars (sep : Char) : List Char → List (List Char)
  | [] => [[]]
  | x :: xs =>
    let r := splitChars sep xs
    if x = sep then [] :: r
    else match r with
      | [] => [[x]]
      | h :: t => (x :: h) :: t

/-- Python s.split(sep) for a one-character separator. -/
def pySplit (sep : Char) (s : String) : List String :=
  (splitChars sep s.toList).map String.mk

/-- Python s.strip(): remove whitespace from both ends. -/
def pyStrip (s : String) : String :=
  String.mk (((s.toList.dropWhile Char.isWhitespace).reverse.dropWhile
    Char.isWhitespace).reverse)

/-- Python filename.rsplit(".", 1)[0]: everything before the last dot, or the
whole string when there is no dot. -/
def stripLastExt (s : String) : String :=
  let parts := pySplit '.' s
  if parts.length ≤ 1 then s else String.intercalate "." parts.dropLast

/-- Does some suffix of the character list satisfy the predicate? Helper for
the percent wildcard of SQLite LIKE. -/
def anySuffix (f : List Char → Bool) : List Char → Bool
  | [] => f []
  | c :: s => f (c :: s) || anySuffix f s

/-- SQLite LIKE matching on already case-folded character lists: percent
matches any sequence of characters, underscore matches exactly one character,
any other pattern character matches itself. -/
def likeChars : List Char → List Char → Bool
  | [], s => s.isEmpty
  | p :: ps, s =>
    if p = '%' then anySuffix (likeChars ps) s
    else match s with
      | [] => false
      | c :: s' => (p == '_' || p == c) && likeChars ps s'

/-- SQLite expression value LIKE pattern for text values: both sides are ASCII
case folded, then the wildcard pattern is matched against the whole value. -/
def sqlLike (pattern value : String) : Bool :=
  likeChars (pattern.toList.map lowerChar) (value.toList.map lowerChar)

/-- Ascending code-point order on strings, the order Python sorted uses. -/
def strRel (a b : String) : Prop := a.toList ≤ b.toList

instance : DecidableRel strRel :=
  fun a b => inferInstanceAs (Decidable (a.toList ≤ b.toList))

instance : IsTotal String strRel := ⟨fun a b => le_total a.toList b.toList⟩

instance : IsTrans String strRel := ⟨fun _ _ _ h1 h2 => le_trans h1 h2⟩

instance : IsAntisymm String strRel := ⟨fun a b h1 h2 => by
  cases a; cases b
  exact congrArg String.mk (le_antisymm h1 h2)⟩

/-- Sorted list of the distinct members of a list of strings: the translation
of Python sorted(list(set(...))), whose result does not depend on the set
iteration order. -/
def sortedDistinct (l : List String) : List String :=
  List.insertionSort strRel l.dedup

/-- One SQLite value as handed over by the Python sqlite3 driver: an integer
(Python bools arrive as 0 or 1), a text, or NULL. -/
inductive SqlVal where
  | int (n : Int)
  | text (s : String)
  | null
deriving DecidableEq, Repr

/-- Storing a driver value into a TEXT-affinity column: integers are converted
to their decimal text, NULL stays NULL. -/
def toTextCol : SqlVal → Option String
  | .text s => some s
  | .int n => some (toString n)
  | .null => none

/-- Storing a driver value into the NUMERIC-affinity boolean columns. The
repository only ever stores booleans (integers 0 and 1) or NULL here; a text
value is read as an integer when it parses, a corner never exercised by the
application and approximated for non-numeric text. -/
def toNumCol : SqlVal → Option Int
  | .int n => some n
  | .null => none
  | .text s => some ((s.toInt?).getD 0)

/-- One row of the entries table, with the columns of the CREATE TABLE in
components/db.py. Text columns are nullable, the boolean flags are stored
integers and nullable (rows predating the archive flag hold NULL there). -/
structure Entry where
  id : Nat
  user_id : Nat
  username : String
  title : Option String
  filename : Option String
  description : Option String
  image_caption : Option String
  link : Option String
  link_summary : Option String
  categories : Option String
  tags : Option String
  file_path : Option String
  file_size : Option Int
  image_width : Option Int
  image_height : Option Int
  notes : Option String
  is_favorite : Option Int
  is_archived : Option Int
  created_at : Nat
  updated_at : Nat
  uploaded_at : Nat
deriving DecidableEq, Repr

/-- A row of the users table; only the columns the embedded operations read
(id resolved from the unique username) are carried. -/
structure User where
  id : Nat
  username : String
deriving DecidableEq, Repr

/-- The persistent state: users and entries tables, the set of upload files on
disk, and the next AUTOINCREMENT id of the entries table. -/
structure DB where
  users : List User
  entries : List Entry
  files : List String
  nextId : Nat
deriving DecidableEq, Repr

/-- get_user_by_username from components/db.py, restricted to the columns the
callers use. -/
def get_user_by_username (db : DB) (username : String) : Option User :=
  db.users.find? (fun u => u.username == username)

/-- The categories and tags arguments of insert_data arrive either as an
already serialized text or as a Python list of labels. -/
inductive StrOrList where
  | str (s : String)
  | list (l : List String)
deriving DecidableEq, Repr

/-- The normalization insert_data applies: a list is comma-space joined, a
text is passed through unchanged. -/
def serializeLabels : StrOrList → String
  | .str s => s
  | .list l => String.intercalate ", " l

/-- The uploaded file handed to insert_data: its client-side name and the byte
size of its buffer. -/
structure ImageFile where
  name : String
  size : Int
deriving DecidableEq, Repr

/-- The ownership test the optional user_id parameter induces in the WHERE
clauses of components/db.py: Python tests the parameter for truthiness, so a
missing id or the id 0 disables the filter. -/
def ownerOk (user_id : Option Nat) (e : Entry) : Bool :=
  match user_id with
  | none => true
  | some u => u == 0 || e.user_id == u

/-- The row insert_data builds and inserts. The clock and the outcome of the
best-effort PIL size decoding are explicit parameters; pil_dims is only
consulted when a file is attached, and a decoding failure is the none case. -/
def newEntry (db : DB) (now : Nat) (username : String) (user : User)
    (image_file : Option ImageFile) (pil_dims : Option (Int × Int))
    (description link summary : String) (categories : StrOrList)
    (title : String) (tags : StrOrList) (notes : String)
    (is_favorite : Bool) : Entry :=
  let filename := match image_file with
    | some f => f.name
    | none => ""
  let file_path : Option String := image_file.map (fun f =>
    "uploads/" ++ toString user.id ++ "_" ++ toString now ++ "_" ++ f.name)
  let file_size : Option Int := image_file.map (fun f => f.size)
  let dims : Option (Int × Int) := match image_file with
    | some _ => pil_dims
    | none => none
  let title' := if title = "" then
      (if filename ≠ "" then stripLastExt filename else "Untitled")
    else title
  { id := db.nextId
    user_id := user.id
    username := username
    title := some title'
    filename := some filename
    description := some description
    image_caption := some summary
    link := some link
    link_summary := some ""
    categories := some (serializeLabels categories)
    tags := some (serializeLabels tags)
    file_path := file_path
    file_size := file_size
    image_width := dims.map (fun d => d.1)
    image_height := dims.map (fun d => d.2)
    notes := some notes
    is_favorite := some (if is_favorite then 1 else 0)
    is_archived := some 0
    created_at := now
    updated_at := now
    uploaded_at := now }

/-- The file write of insert_data: the upload path joins the set of stored
files (an overwrite of an already present path leaves the set unchanged). -/
def insertFiles (db : DB) : Option String → List String
  | some p => if db.files.contains p then db.files else db.files ++ [p]
  | none => db.files

/-- insert_data from components/db.py: resolve the owner, write the file,
insert the new row. File-system faults are not modelled, so the exception arm
of the source maps to the user-not-found failure only. -/
def insert_data (db : DB) (now : Nat) (username : String)
    (image_file : Option ImageFile) (pil_dims : Option (Int × Int))
    (description link summary : String) (categories : StrOrList)
    (title : String) (tags : StrOrList) (notes : String)
    (is_favorite : Bool) : (Bool × String) × DB :=
  match get_user_by_username db username with
  | none => ((false, "User not found"), db)
  | some user =>
    let entry := newEntry db now username user image_file pil_dims description
      link summary categories title tags notes is_favorite
    ((true, "Entry saved successfully"),
      { db with entries := db.entries ++ [entry],
                files := insertFiles db entry.file_path,
                nextId := db.nextId + 1 })

/-- The update whitelist of update_entry. -/
def allowed_fields : List String :=
  ["title", "description", "image_caption", "link", "link_summary",
   "categories", "tags", "notes", "is_favorite", "is_archived"]

/-- Assignment of one whitelisted column, as the generated SET clause stores
it; any other name leaves the row unchanged (such a name never reaches the
clause, because update_entry filters on the whitelist first). -/
def setField (e : Entry) (field : String) (v : SqlVal) : Entry :=
  match field with
  | "title" => { e with title := toTextCol v }
  | "description" => { e with description := toTextCol v }
  | "image_caption" => { e with image_caption := toTextCol v }
  | "link" => { e with link := toTextCol v }
  | "link_summary" => { e with link_summary := toTextCol v }
  | "categories" => { e with categories := toTextCol v }
  | "tags" => { e with tags := toTextCol v }
  | "notes" => { e with notes := toTextCol v }
  | "is_favorite" => { e with is_favorite := toNumCol v }
  | "is_archived" => { e with is_archived := toNumCol v }
  | _ => e

/-- The effect of the generated UPDATE statement on one row: the recognized
assignments in patch order, then the refresh of updated_at that update_entry
always appends. -/
def applyPatch (now : Nat) (fields : List (String × SqlVal)) (e : Entry) : Entry :=
  { fields.foldl (fun acc kv => setField acc kv.1 kv.2) e with updated_at := now }

/-- update_entry from components/db.py: existence and ownership check, then a
dynamically built UPDATE over the whitelisted keys of the patch; the patch is
the item list of the Python dict. -/
def update_entry (db : DB) (now : Nat) (entry_id : Nat)
    (update_data : List (String × SqlVal)) (user_id : Option Nat) : Bool × DB :=
  match db.entries.find? (fun e => e.id == entry_id && ownerOk user_id e) with
  | none => (false, db)
  | some _ =>
    let update_fields :=
      update_data.filter (fun kv => allowed_fields.contains kv.1)
    if update_fields.isEmpty then (false, db)
    else
      (true, { db with entries := db.entries.map (fun e =>
        if e.id == entry_id then applyPatch now update_fields e else e) })

/-- delete_entry from components/db.py: row lookup, row deletion, then a
best-effort removal of the backing file whose operating-system outcome is the
remove_ok parameter (a failure is swallowed by the inner try). -/
def delete_entry (db : DB) (remove_ok : Bool) (entry_id : Nat)
    (user_id : Option Nat) : Bool × DB :=
  match db.entries.find? (fun e => e.id == entry_id && ownerOk user_id e) with
  | none => (false, db)
  | some entry =>
    let db1 := { db with
      entries := db.entries.filter
        (fun e => !(e.id == entry_id && ownerOk user_id e)) }
    let db2 := match entry.file_path with
      | some p =>
        if p != "" && db1.files.contains p && remove_ok then
          { db1 with files := db1.files.erase p }
        else db1
      | none => db1
    (true, db2)

/-- get_entry_by_id from components/db.py; the SELECT column order of the
source is the tuple shape documented by the field tables below. -/
def get_entry_by_id (db : DB) (entry_id : Nat) (user_id : Option Nat) :
    Option Entry :=
  db.entries.find? (fun e => e.id == entry_id && ownerOk user_id e)

/-- One LIKE filter of search_entries on a nullable column: a NULL value makes
the comparison non-true, so the row contributes no match. -/
def likeField (pattern : String) (field : Option String) : Bool :=
  match field with
  | some s => sqlLike pattern s
  | none => false

/-- The WHERE clause search_entries builds: username equality always, then one
block per truthy filter, exactly as the source concatenates them. -/
def searchCond (username search_query category tag : String)
    (favorites_only exclude_archived : Bool) (e : Entry) : Bool :=
  e.username == username
  && (search_query == ""
      || (likeField ("%" ++ search_query ++ "%") e.title
          || likeField ("%" ++ search_query ++ "%") e.description
          || likeField ("%" ++ search_query ++ "%") e.image_caption
          || likeField ("%" ++ search_query ++ "%") e.filename
          || likeField ("%" ++ search_query ++ "%") e.tags
          || likeField ("%" ++ search_query ++ "%") e.notes))
  && (category == "" || likeField ("%" ++ category ++ "%") e.categories)
  && (tag == "" || likeField ("%" ++ tag ++ "%") e.tags)
  && (!favorites_only || e.is_favorite == some 1)
  && (!exclude_archived || (e.is_archived == some 0 || e.is_archived == none))

/-- search_entries from components/db.py: the filtered rows ordered by upload
time, most recent first. A query-execution fault returning the empty list has
no source inside the model. -/
def search_entries (db : DB) (username search_query category tag : String)
    (favorites_only exclude_archived : Bool) : List Entry :=
  List.insertionSort (fun a b => b.uploaded_at ≤ a.uploaded_at)
    (db.entries.filter
      (searchCond username search_query category tag favorites_only
        exclude_archived))

/-- The non-NULL categories strings of the entries of one user, in table order; the
projection the label queries read. -/
def storedCategories (db : DB) (username : String) : List String :=
  (db.entries.filter (fun e => e.username == username)).filterMap
    (fun e => e.categories)

/-- The non-NULL tags strings of the entries of one user, in table order. -/
def storedTags (db : DB) (username : String) : List String :=
  (db.entries.filter (fun e => e.username == username)).filterMap
    (fun e => e.tags)

/-- get_all_categories from components/db.py: SELECT DISTINCT of the non-NULL
label strings, skip falsy (empty) strings, split each on commas, strip each
piece, collect into a set, return sorted. -/
def get_all_categories (db : DB) (username : String) : List String :=
  let rows := (storedCategories db username).dedup
  sortedDistinct ((rows.filter (fun s => s != "")).flatMap
    (fun s => (pySplit ',' s).map pyStrip))

/-- get_all_tags from components/db.py, identical to get_all_categories on the
tags column. -/
def get_all_tags (db : DB) (username : String) : List String :=
  let rows := (storedTags db username).dedup
  sortedDistinct ((rows.filter (fun s => s != "")).flatMap
    (fun s => (pySplit ',' s).map pyStrip))

/-- Modelled from the spec, for the distinct-labels claim only: the set
obtained by splitting every stored label string on commas, trimming whitespace
from each piece, and deduplicating, returned in ascending lexicographic
order. -/
def specDistinctLabels (stored : List String) : List String :=
  sortedDistinct (stored.flatMap (fun s => (pySplit ',' s).map pyStrip))

/-- The shared lookup logic of the three get_entry_field copies: find the
field name in the given name-to-position table, return the tuple element at
that position, and return none both for an unknown name and for a record
shorter than the position. -/
def get_entry_field_with (mapping : List (String × Nat))
    (entry : List SqlVal) (field_name : String) : Option SqlVal :=
  match mapping.find? (fun kv => kv.1 == field_name) with
  | none => none
  | some kv =>
    if h : kv.2 < entry.length then some (entry.get ⟨kv.2, h⟩) else none

/-- The field table of streamlit_app.py (the current-schema order, matching
the SELECT column order of components/db.py). -/
def field_mapping : List (String × Nat) :=
  [("id", 0), ("username", 1), ("filename", 2), ("description", 3),
   ("image_caption", 4), ("link", 5), ("link_summary", 6), ("categories", 7),
   ("uploaded_at", 8), ("user_id", 9), ("file_path", 10), ("file_size", 11),
   ("title", 12), ("tags", 13), ("image_width", 14), ("image_height", 15),
   ("notes", 16), ("is_favorite", 17), ("is_archived", 18)]

/-- The field table of app.py (the original schema order). -/
def field_mapping_original : List (String × Nat) :=
  [("id", 0), ("user_id", 1), ("username", 2), ("title", 3), ("filename", 4),
   ("description", 5), ("image_caption", 6), ("link", 7), ("link_summary", 8),
   ("categories", 9), ("tags", 10), ("file_path", 11), ("file_size", 12),
   ("image_width", 13), ("image_height", 14), ("notes", 15),
   ("is_favorite", 16), ("is_archived", 17), ("created_at", 18),
   ("updated_at", 19), ("uploaded_at", 20)]

/-- The field table of streamlit_app_enhanced.py. -/
def field_mapping_enhanced : List (String × Nat) :=
  [("id", 0), ("username", 1), ("title", 2), ("filename", 3),
   ("description", 4), ("image_caption", 5), ("link", 6), ("link_summary", 7),
   ("categories", 8), ("tags", 9), ("file_path", 10), ("file_size", 11),
   ("image_width", 12), ("image_height", 13), ("notes", 14),
   ("is_favorite", 15), ("is_archived", 16), ("created_at", 17),
   ("updated_at", 18), ("uploaded_at", 19)]

/-- get_entry_field of streamlit_app.py. -/
def get_entry_field (entry : List SqlVal) (field_name : String) : Option SqlVal :=
  get_entry_field_with field_mapping entry field_name

/-- The structured result analyze_image always returns. -/
structure AnalysisResult where
  summary : String
  categories : List String
  caption : String
  full_analysis : String
deriving DecidableEq, Repr

/-- The fixed category-to-trigger-keywords table of
extract_categories_from_text, in source order. -/
def category_keywords : List (String × List String) :=
  [("nature", ["tree", "flower", "plant", "landscape", "mountain", "water",
               "sky", "outdoor"]),
   ("people", ["person", "people", "human", "face", "portrait", "group"]),
   ("animal", ["dog", "cat", "bird", "animal", "pet", "wildlife"]),
   ("food", ["food", "meal", "cooking", "restaurant", "kitchen", "eating"]),
   ("technology", ["computer", "phone", "device", "screen", "technology",
                   "digital"]),
   ("vehicle", ["car", "truck", "bike", "plane", "vehicle", "transportation"]),
   ("building", ["building", "house", "architecture", "structure", "urban"]),
   ("art", ["painting", "artwork", "drawing", "artistic", "creative"]),
   ("sport", ["sport", "game", "playing", "exercise", "athletic"]),
   ("indoor", ["indoor", "inside", "room", "interior"]),
   ("outdoor", ["outdoor", "outside", "exterior", "landscape"])]

/-- Is the needle a contiguous substring of the haystack? The Python
membership test keyword in text. -/
def containsSub (needle haystack : List Char) : Bool :=
  decide (needle <:+: haystack)

/-- extract_categories_from_text from components/image_processor.py: every
category whose keyword set has a member occurring in the lower-cased analysis
text, in table order, capped at five; the single general category when none
matched. -/
def extract_categories_from_text (text : String) : List String :=
  let text_lower := text.toList.map lowerChar
  let found := (category_keywords.filter
    (fun ck => ck.2.any (fun kw => containsSub kw.toList text_lower))).map
      (fun ck => ck.1)
  if found.isEmpty then ["general"] else found.take 5

/-- extract_caption_from_text from components/image_processor.py: the first
period-separated sentence whose stripped form exceeds ten characters, stripped
and cut to one hundred characters, with an ellipsis when the raw sentence
exceeded one hundred characters. -/
def extract_caption_from_text (text : String) : String :=
  match (pySplit '.' text).find? (fun s => 10 < (pyStrip s).length) with
  | some sentence =>
    (pyStrip sentence).take 100 ++ (if 100 < sentence.length then "..." else "")
  | none => "Image analysis"

/-- The fallback record the except arm of analyze_image builds from the raised
message. -/
def fallback_result (error_msg : String) : AnalysisResult :=
  { summary := "Image analysis encountered an error: " ++ error_msg
    categories := ["error", "fallback"]
    caption := "Analysis failed"
    full_analysis := "Error details: " ++ error_msg }

/-- analyze_image from components/image_processor.py. The two external Gemini
calls are opaque: gemini_outcome is the analysis text of the vision call or raised
message, summary_outcome the result of the summarization call, consulted only when
the analysis text exceeds five hundred characters; either exception lands in
the fallback arm. The description and link arguments only extend the prompt
sent to the external service, so they cannot influence the modelled result. -/
def analyze_image (gemini_outcome summary_outcome : Except String String)
    (description link : String) : AnalysisResult :=
  match gemini_outcome with
  | .error e => fallback_result e
  | .ok analysis_result =>
    let categories := extract_categories_from_text analysis_result
    if 500 < analysis_result.length then
      match summary_outcome with
      | .error e => fallback_result e
      | .ok summary =>
        { summary := summary
          categories := categories
          caption := extract_caption_from_text analysis_result
          full_analysis := analysis_result }
    else
      { summary := analysis_result
        categories := categories
        caption := extract_caption_from_text analysis_result
        full_analysis := analysis_result }

/-- The query occurs, ASCII-case-insensitively, as a contiguous substring of a
non-NULL field value: the reading of the search claim against one column. -/
def ciSub (q : String) (field : Option String) : Prop :=
  ∃ s, field = some s ∧ (q.toList.map lowerChar) <:+: (s.toList.map lowerChar)

instance (q : String) (field : Option String) : Decidable (ciSub q field) :=
  match field with
  | none => isFalse (by simp [ciSub])
  | some s => decidable_of_iff
      ((q.toList.map lowerChar) <:+: (s.toList.map lowerChar))
      (by simp [ciSub])

/-- Sample user shared by the concrete scenarios below. -/
def sampleUser : User := { id := 1, username := "alice" }

/-- A minimal committed row shared by the concrete scenarios below. -/
def baseEntry : Entry :=
  { id := 1, user_id := 1, username := "alice", title := none,
    filename := none, description := none, image_caption := none,
    link := none, link_summary := none, categories := none, tags := none,
    file_path := none, file_size := none, image_width := none,
    image_height := none, notes := none, is_favorite := some 0,
    is_archived := some 0, created_at := 0, updated_at := 0, uploaded_at := 0 }

/-- An empty store holding only the sample user. -/
def emptyDB : DB := { users := [sampleUser], entries := [], files := [], nextId := 1 }

/-- A row whose archived flag is NULL, as rows predating the archive column
migration have. -/
def archNullEntry : Entry := { baseEntry with is_archived := none }

/-- Store for the archived-filter scenario. -/
def archDB : DB :=
  { users := [sampleUser], entries := [archNullEntry], files := [], nextId := 2 }

/-- Row for the LIKE-wildcard counterexample: its description reads abc and
every other searched column is NULL. -/
def wildcardEntry : Entry := { baseEntry with description := some "abc" }

/-- Store for the LIKE-wildcard counterexample. -/
def wildcardDB : DB :=
  { users := [sampleUser], entries := [wildcardEntry], files := [], nextId := 2 }

/-- Row for the case-insensitive search witness. -/
def helloEntry : Entry := { baseEntry with description := some "Hello World" }

/-- Store for the case-insensitive search witness. -/
def helloDB : DB :=
  { users := [sampleUser], entries := [helloEntry], files := [], nextId := 2 }

/-- Row whose categories string is empty, as insert_data creates by default;
the seed of the distinct-labels counterexample. -/
def emptyLabelEntry : Entry := { baseEntry with categories := some "" }

/-- Store for the distinct-labels counterexample. -/
def emptyLabelDB : DB :=
  { users := [sampleUser], entries := [emptyLabelEntry], files := [], nextId := 2 }

/-- The two rows of the distinct-labels example of the spec, carrying the
labels a, b and b (whitespace variant), c. -/
def labelsDB : DB :=
  { users := [sampleUser],
    entries := [{ baseEntry with categories := some "a, b" },
                { baseEntry with id := 2, categories := some " b , c",
                                 uploaded_at := 1 }],
    files := [], nextId := 3 }

/-- A row owned by a second user, for the ownership-mismatch scenarios. -/
def otherOwnerEntry : Entry :=
  { baseEntry with id := 5, user_id := 2, username := "bob",
                   title := some "T", updated_at := 7 }

/-- Store for the ownership-mismatch scenarios: the row with id 5 belongs to
user 2, while the caller passes user 1. -/
def ownershipDB : DB :=
  { users := [sampleUser, { id := 2, username := "bob" }],
    entries := [otherOwnerEntry], files := [], nextId := 6 }

/-- Store for the delete scenarios: one row with a backing file on disk. -/
def fileEntry : Entry :=
  { baseEntry with file_path := some "uploads/1_0_f.jpg" }

/-- Store for the delete scenarios. -/
def fileDB : DB :=
  { users := [sampleUser], entries := [fileEntry],
    files := ["uploads/1_0_f.jpg"], nextId := 2 }

/-! Helper lemmas. -/

theorem sortedDistinct_eq_of_mem_iff {A B : List String}
    (h : ∀ s, s ∈ A ↔ s ∈ B) : sortedDistinct A = sortedDistinct B := by
  unfold sortedDistinct
  exact List.eq_of_perm_of_sorted
    ((List.perm_insertionSort strRel A.dedup).trans
      (((List.perm_ext_iff_of_nodup (List.nodup_dedup A)
          (List.nodup_dedup B)).mpr
        (fun a => by simp only [List.mem_dedup, h])).trans
        (List.perm_insertionSort strRel B.dedup).symm))
    (List.sorted_insertionSort strRel A.dedup)
    (List.sorted_insertionSort strRel B.dedup)

theorem anySuffix_eq_true_iff (f : List Char → Bool) (s : List Char) :
    anySuffix f s = true ↔ ∃ t, t <:+ s ∧ f t = true := by
  induction s with
  | nil =>
    simp only [anySuffix, List.suffix_nil]
    constructor
    · intro h; exact ⟨[], rfl, h⟩
    · rintro ⟨t, rfl, h⟩; exact h
  | cons c s ih =>
    simp only [anySuffix, Bool.or_eq_true, ih, List.suffix_cons_iff]
    constructor
    · rintro (h | ⟨t, ht, hf⟩)
      · exact ⟨c :: s, Or.inl rfl, h⟩
      · exact ⟨t, Or.inr ht, hf⟩
    · rintro ⟨t, h | ht, hf⟩
      · subst h; exact Or.inl hf
      · exact Or.inr ⟨t, ht, hf⟩

theorem lowerChar_eq_percent {c : Char} (h : lowerChar c = '%') : c = '%' := by
  unfold lowerChar at h
  cases hf : asciiCaseTable.find? (fun p => p.1 == c) with
  | none => rw [hf] at h; exact h
  | some p =>
    rw [hf] at h
    have hall : ∀ q ∈ asciiCaseTable, q.2 ≠ '%' := by decide
    exact absurd h (hall p (List.mem_of_find?_eq_some hf))

theorem lowerChar_eq_underscore {c : Char} (h : lowerChar c = '_') : c = '_' := by
  unfold lowerChar at h
  cases hf : asciiCaseTable.find? (fun p => p.1 == c) with
  | none => rw [hf] at h; exact h
  | some p =>
    rw [hf] at h
    have hall : ∀ q ∈ asciiCaseTable, q.2 ≠ '_' := by decide
    exact absurd h (hall p (List.mem_of_find?_eq_some hf))

theorem likeChars_percent_only (s : List Char) : likeChars ['%'] s = true := by
  show (if ('%' : Char) = '%' then anySuffix (likeChars []) s else _) = true
  rw [if_pos rfl, anySuffix_eq_true_iff]
  exact ⟨[], List.nil_suffix, rfl⟩

theorem likeChars_lit_percent (q s : List Char)
    (hq : ∀ c ∈ q, c ≠ '%' ∧ c ≠ '_') :
    likeChars (q ++ ['%']) s = true ↔ q <+: s := by
  induction q generalizing s with
  | nil =>
    simp only [List.nil_append, likeChars_percent_only, List.nil_prefix]
  | cons c q ih =>
    have hc := hq c (List.mem_cons_self c q)
    cases s with
    | nil =>
      have step : likeChars ((c :: q) ++ ['%']) [] = false := by
        show (if c = '%' then _ else _) = false
        rw [if_neg hc.1]
      rw [step]
      simp
    | cons d s' =>
      have step : likeChars ((c :: q) ++ ['%']) (d :: s')
          = ((c == '_' || c == d) && likeChars (q ++ ['%']) s') := by
        show (if c = '%' then _ else _) = _
        rw [if_neg hc.1]
        rfl
      rw [step]
      have hcu : (c == '_') = false := by
        simpa using hc.2
      simp only [hcu, Bool.false_or, Bool.and_eq_true, beq_iff_eq,
        List.cons_prefix_cons, ih s' (fun x hx => hq x (List.mem_cons_of_mem c hx))]

theorem sqlLike_contains_iff (q s : String)
    (hq : ∀ c ∈ q.toList, c ≠ '%' ∧ c ≠ '_') :
    sqlLike ("%" ++ q ++ "%") s = true ↔
      (q.toList.map lowerChar) <:+: (s.toList.map lowerChar) := by
  have hdata : ("%" ++ q ++ "%").toList = '%' :: (q.toList ++ ['%']) := by
    show (("%" ++ q ++ "%")).data = '%' :: (q.data ++ ['%'])
    rw [String.data_append, String.data_append]
    rfl
  have hlq : ∀ c ∈ q.toList.map lowerChar, c ≠ '%' ∧ c ≠ '_' := by
    intro c hc
    rcases List.mem_map.mp hc with ⟨c0, hc0, rfl⟩
    exact ⟨fun h => (hq c0 hc0).1 (lowerChar_eq_percent h),
           fun h => (hq c0 hc0).2 (lowerChar_eq_underscore h)⟩
  unfold sqlLike
  rw [hdata]
  simp only [List.map_cons, List.map_append]
  have hpc : lowerChar '%' = '%' := by decide
  rw [hpc]
  show likeChars ('%' :: (q.toList.map lowerChar ++ [lowerChar '%'])) _ = true ↔ _
  rw [hpc]
  have hunfold : likeChars ('%' :: (q.toList.map lowerChar ++ ['%']))
      (s.toList.map lowerChar)
      = anySuffix (likeChars (q.toList.map lowerChar ++ ['%']))
          (s.toList.map lowerChar) := by
    show (if ('%' : Char) = '%' then _ else _) = _
    rw [if_pos rfl]
  rw [hunfold, anySuffix_eq_true_iff]
  constructor
  · rintro ⟨t, hts, hlike⟩
    exact List.infix_iff_prefix_suffix.mpr
      ⟨t, (likeChars_lit_percent _ t hlq).mp hlike, hts⟩
  · intro h
    rcases List.infix_iff_prefix_suffix.mp h with ⟨t, hpre, hsuf⟩
    exact ⟨t, hsuf, (likeChars_lit_percent _ t hlq).mpr hpre⟩

theorem likeField_iff (q : String) (field : Option String)
    (hq : ∀ c ∈ q.toList, c ≠ '%' ∧ c ≠ '_') :
    likeField ("%" ++ q ++ "%") field = true ↔ ciSub q field := by
  cases field with
  | none => simp [likeField, ciSub]
  | some s =>
    simp only [likeField, ciSub, Option.some.injEq]
    rw [sqlLike_contains_iff q s hq]
    constructor
    · intro h; exact ⟨s, rfl, h⟩
    · rintro ⟨s', rfl, h⟩; exact h

theorem find?_key_of_nodup {mapping : List (String × Nat)} {name : String}
    {i : Nat} (hnd : (mapping.map Prod.fst).Nodup)
    (hmem : (name, i) ∈ mapping) :
    mapping.find? (fun kv => kv.1 == name) = some (name, i) := by
  induction mapping with
  | nil => cases hmem
  | cons kv rest ih =>
    rw [List.map_cons, List.nodup_cons] at hnd
    rcases List.mem_cons.mp hmem with h | h
    · rw [List.find?_cons, ← h]
      simp
    · have hne : (kv.1 == name) = false := by
        have : name ∈ rest.map Prod.fst :=
          List.mem_map.mpr ⟨(name, i), h, rfl⟩
        simp only [beq_eq_false_iff_ne, ne_eq]
        intro hEq
        exact hnd.1 (hEq ▸ this)
      rw [List.find?_cons, hne]
      exact ih hnd.2 h

theorem setField_id (e : Entry) (field : String) (v : SqlVal) :
    (setField e field v).id = e.id := by
  unfold setField
  split <;> rfl

theorem setField_updated_at (e : Entry) (field : String) (v : SqlVal) :
    (setField e field v).updated_at = e.updated_at := by
  unfold setField
  split <;> rfl

theorem foldl_setField_id (fields : List (String × SqlVal)) (e : Entry) :
    (fields.foldl (fun acc kv => setField acc kv.1 kv.2) e).id = e.id := by
  induction fields generalizing e with
  | nil => rfl
  | cons kv rest ih => rw [List.foldl_cons, ih, setField_id]

theorem applyPatch_updated_at (now : Nat) (fields : List (String × SqlVal))
    (e : Entry) : (applyPatch now fields e).updated_at = now := rfl

theorem applyPatch_id (now : Nat) (fields : List (String × SqlVal))
    (e : Entry) : (applyPatch now fields e).id = e.id := by
  unfold applyPatch
  exact foldl_setField_id fields e

theorem extract_categories_length_le (text : String) :
    (extract_categories_from_text text).length ≤ 5 := by
  simp only [extract_categories_from_text]
  split
  · simp
  · exact List.length_take_le 5 _

theorem extract_categories_general (text : String)
    (h : ∀ ck ∈ category_keywords, ∀ kw ∈ ck.2,
      ¬ (kw.toList <:+: text.toList.map lowerChar)) :
    extract_categories_from_text text = ["general"] := by
  simp only [extract_categories_from_text]
  have hfilter : category_keywords.filter
      (fun ck => ck.2.any
        (fun kw => containsSub kw.toList (text.toList.map lowerChar))) = [] := by
    rw [List.filter_eq_nil_iff]
    intro ck hck
    simp only [List.any_eq_true, containsSub, decide_eq_true_eq, not_exists]
    rintro kw ⟨hkw, hinf⟩
    exact h ck hck kw hkw hinf
  rw [hfilter]
  rfl

/-! Claim theorems. -/

/-- C8: for every record tuple and field name, the field accessor is total: it
returns none when the field name has no position in the table, none when the
record is not longer than the mapped position, and the tuple element at that
position otherwise. Stated for any table whose names are distinct, which
covers the three copies of get_entry_field and their three tables. -/
theorem C8_field_accessor_total (mapping : List (String × Nat))
    (entry : List SqlVal) (name : String)
    (hnd : (mapping.map Prod.fst).Nodup) :
    ((¬ ∃ i, (name, i) ∈ mapping) →
      get_entry_field_with mapping entry name = none)
    ∧ (∀ i, (name, i) ∈ mapping → entry.length ≤ i →
      get_entry_field_with mapping entry name = none)
    ∧ (∀ i, (name, i) ∈ mapping → ∀ h : i < entry.length,
      get_entry_field_with mapping entry name = some (entry.get ⟨i, h⟩)) := by
  refine ⟨?_, ?_, ?_⟩
  · intro hno
    unfold get_entry_field_with
    cases hf : mapping.find? (fun kv => kv.1 == name) with
    | none => rfl
    | some kv =>
      have hp := List.find?_some hf
      have hm := List.mem_of_find?_eq_some hf
      rw [beq_iff_eq] at hp
      exact absurd ⟨kv.2, by rw [← hp]; exact hm⟩ hno
  · intro i hmem hlen
    unfold get_entry_field_with
    rw [find?_key_of_nodup hnd hmem]
    exact dif_neg (not_lt.mpr hlen)
  · intro i hmem h
    unfold get_entry_field_with
    rw [find?_key_of_nodup hnd hmem]
    exact dif_pos h

/-- Witness for C8: in the current-schema table, filename sits at position 2,
so a two-element record yields none, while username at position 1 is
returned. -/
theorem C8_witness :
    get_entry_field_with field_mapping [SqlVal.int 7, SqlVal.text "u"]
        "filename" = none
    ∧ get_entry_field_with field_mapping [SqlVal.int 7, SqlVal.text "u"]
        "username" = some (SqlVal.text "u") := by
  refine ⟨?_, ?_⟩
  · exact (C8_field_accessor_total field_mapping
      [SqlVal.int 7, SqlVal.text "u"] "filename" (by decide)).2.1 2
      (by decide) (by decide)
  · exact (C8_field_accessor_total field_mapping
      [SqlVal.int 7, SqlVal.text "u"] "username" (by decide)).2.2 1
      (by decide) (by decide)

/-- C9: the analysis adapter is total and structured: its category list never
exceeds five entries; when the vision call succeeds and no trigger keyword of
the fixed table occurs case-insensitively in the analysis text, the categories
are exactly the general default, unless the internal summarization step fails,
in which case the whole result is the marked fallback record; and when the
vision call raises, the result is the marked fallback record for that
message. -/
theorem C9_analyze_image_boundary (g s : Except String String)
    (description link : String) :
    ((analyze_image g s description link).categories.length ≤ 5)
    ∧ (∀ text, g = Except.ok text →
        (∀ ck ∈ category_keywords, ∀ kw ∈ ck.2,
          ¬ (kw.toList <:+: text.toList.map lowerChar)) →
        ((analyze_image g s description link).categories = ["general"]
          ∨ ∃ e, s = Except.error e
              ∧ analyze_image g s description link = fallback_result e))
    ∧ (∀ e, g = Except.error e →
        analyze_image g s description link = fallback_result e) := by
  refine ⟨?_, ?_, ?_⟩
  · cases g with
    | error e => simp [analyze_image, fallback_result]
    | ok text =>
      simp only [analyze_image]
      split
      · cases s with
        | error e => simp [fallback_result]
        | ok summary => simpa using extract_categories_length_le text
      · simpa using extract_categories_length_le text
  · rintro text rfl hno
    simp only [analyze_image]
    split
    · cases s with
      | error e => exact Or.inr ⟨e, rfl, rfl⟩
      | ok summary => exact Or.inl (by simpa using extract_categories_general text hno)
    · exact Or.inl (by simpa using extract_categories_general text hno)
  · rintro e rfl
    rfl

/-- Witness for C9: on an analysis text matching no trigger keyword, the
adapter returns the single general category. -/
theorem C9_witness :
    (analyze_image (Except.ok "zzz qqq") (Except.ok "sum") "" "").categories
      = ["general"] := by
  rcases (C9_analyze_image_boundary (Except.ok "zzz qqq") (Except.ok "sum")
      "" "").2.1 "zzz qqq" rfl (by decide) with h | ⟨e, he, _⟩
  · exact h
  · exact Except.noConfusion he

/-- C2: update applies only whitelisted keys (filtering the patch to the
whitelist does not change the outcome), a patch with no recognized key is
rejected with the store unchanged, and a successful update stamps the target
updated_at of the target row with the current time. -/
theorem C2_update_whitelist (db : DB) (now entry_id : Nat)
    (patch : List (String × SqlVal)) (uid : Option Nat) :
    update_entry db now entry_id patch uid
      = update_entry db now entry_id
          (patch.filter (fun kv => allowed_fields.contains kv.1)) uid
    ∧ ((∀ kv ∈ patch, kv.1 ∉ allowed_fields) →
        update_entry db now entry_id patch uid = (false, db))
    ∧ ((update_entry db now entry_id patch uid).1 = true →
        ∀ e ∈ (update_entry db now entry_id patch uid).2.entries,
          e.id = entry_id → e.updated_at = now) := by
  refine ⟨?_, ?_, ?_⟩
  · unfold update_entry
    rw [List.filter_filter]
    have h2 : (fun (kv : String × SqlVal) =>
        allowed_fields.contains kv.1 && allowed_fields.contains kv.1)
        = (fun kv => allowed_fields.contains kv.1) :=
      funext (fun kv => Bool.and_self _)
    rw [h2]
  · intro hall
    have hfil : patch.filter (fun kv => allowed_fields.contains kv.1) = [] := by
      rw [List.filter_eq_nil_iff]
      intro kv hkv
      simpa using hall kv hkv
    unfold update_entry
    rw [hfil]
    rcases hf : db.entries.find? (fun e => e.id == entry_id && ownerOk uid e)
      with _ | e0
    · rw [hf]
    · rw [hf]; rfl
  · intro hres
    unfold update_entry at hres ⊢
    rcases hf : db.entries.find? (fun e => e.id == entry_id && ownerOk uid e)
      with _ | e0
    · rw [hf] at hres
      exact absurd hres (by simp)
    · rw [hf] at hres ⊢
      by_cases hem :
          (patch.filter (fun kv => allowed_fields.contains kv.1)).isEmpty
      · simp only [hem, if_true] at hres
        exact absurd hres (by simp)
      · simp only [hem, if_false, Bool.false_eq_true] at hres ⊢
        intro e he hid
        rcases List.mem_map.mp he with ⟨a, _, hae⟩
        by_cases hid0 : a.id = entry_id
        · have : (a.id == entry_id) = true := beq_iff_eq.mpr hid0
          rw [if_pos this] at hae
          rw [← hae]
          exact applyPatch_updated_at now _ a
        · have : (a.id == entry_id) = false := by
            simpa using hid0
          rw [if_neg (by simp [this])] at hae
          exact absurd (hae ▸ hid) hid0

/-- Witness for C2: a patch holding only the unrecognized key junk leaves the
ownership store untouched and fails, and the patched row of a successful
title update carries the new clock value. -/
theorem C2_witness :
    update_entry ownershipDB 9 5 [("junk", SqlVal.text "x")] none
      = (false, ownershipDB)
    ∧ (applyPatch 9 [("title", SqlVal.text "T")] otherOwnerEntry).updated_at
      = 9 := by
  constructor
  · exact (C2_update_whitelist ownershipDB 9 5 [("junk", SqlVal.text "x")]
      none).2.1 (by decide)
  · exact (C2_update_whitelist ownershipDB 9 5 [("title", SqlVal.text "T")]
      none).2.2 (by decide)
      (applyPatch 9 [("title", SqlVal.text "T")] otherOwnerEntry)
      (by decide) (by decide)

/-- C3: with a truthy owner id supplied, an update of a row that does not
belong to that owner fails and changes nothing, exactly like an update of a
row that does not exist: both return the failure flag with the store
unchanged. -/
theorem C3_update_ownership (db : DB) (now entry_id : Nat)
    (patch : List (String × SqlVal)) (uid : Nat) (hu : uid ≠ 0) :
    ((∀ e ∈ db.entries, e.id = entry_id → e.user_id ≠ uid) →
      update_entry db now entry_id patch (some uid) = (false, db))
    ∧ ((∀ e ∈ db.entries, e.id ≠ entry_id) →
      update_entry db now entry_id patch (some uid) = (false, db)) := by
  constructor
  · intro h
    have hnone : db.entries.find?
        (fun e => e.id == entry_id && ownerOk (some uid) e) = none := by
      rw [List.find?_eq_none]
      intro e he
      simp only [Bool.and_eq_true, beq_iff_eq, ownerOk, Bool.or_eq_true,
        not_and]
      intro hid
      rcases em (uid = 0) with h0 | h0
      · exact absurd h0 hu
      · simp only [beq_iff_eq, h0, false_or]
        exact h e he hid
    unfold update_entry
    rw [hnone]
  · intro h
    have hnone : db.entries.find?
        (fun e => e.id == entry_id && ownerOk (some uid) e) = none := by
      rw [List.find?_eq_none]
      intro e he
      simp only [Bool.and_eq_true, beq_iff_eq, not_and]
      intro hid
      exact absurd hid (h e he)
    unfold update_entry
    rw [hnone]

/-- Witness for C3: the row with id 5 belongs to user 2, so user 1 can neither
update it nor observe it differently from the missing id 99. -/
theorem C3_witness :
    update_entry ownershipDB 9 5 [("is_favorite", SqlVal.int 1)] (some 1)
      = (false, ownershipDB)
    ∧ update_entry ownershipDB 9 99 [("is_favorite", SqlVal.int 1)] (some 1)
      = (false, ownershipDB) := by
  constructor
  · exact (C3_update_ownership ownershipDB 9 5
      [("is_favorite", SqlVal.int 1)] 1 (by decide)).1 (by decide)
  · exact (C3_update_ownership ownershipDB 9 99
      [("is_favorite", SqlVal.int 1)] 1 (by decide)).2 (by decide)

/-- C4: a delete whose row lookup misses returns failure with the whole state,
file system included, untouched; and the success flag equals the success of the row lookup
alone, so the file-removal outcome never influences it. -/
theorem C4_delete_row_authority (db : DB) (remove_ok : Bool) (entry_id : Nat)
    (uid : Option Nat) :
    (db.entries.find? (fun e => e.id == entry_id && ownerOk uid e) = none →
      delete_entry db remove_ok entry_id uid = (false, db))
    ∧ (delete_entry db remove_ok entry_id uid).1
      = (db.entries.find? (fun e => e.id == entry_id && ownerOk uid e)).isSome := by
  constructor
  · intro hf
    unfold delete_entry
    rw [hf]
  · unfold delete_entry
    rcases hf : db.entries.find? (fun e => e.id == entry_id && ownerOk uid e)
      with _ | e0
    · rw [hf]; rfl
    · rw [hf]; rfl

/-- Witness for C4: deleting the missing id 7 fails and leaves the stored file
in place. -/
theorem C4_witness :
    delete_entry fileDB true 7 none = (false, fileDB) :=
  (C4_delete_row_authority fileDB true 7 none).1 (by decide)

theorem insert_data_ok (db : DB) (now : Nat) (username : String)
    (image_file : Option ImageFile) (pil_dims : Option (Int × Int))
    (description link summary : String) (categories : StrOrList)
    (title : String) (tags : StrOrList) (notes : String) (is_favorite : Bool)
    (user : User) (hu : get_user_by_username db username = some user) :
    insert_data db now username image_file pil_dims description link summary
        categories title tags notes is_favorite
      = ((true, "Entry saved successfully"),
        { db with
          entries := db.entries ++ [newEntry db now username user image_file
            pil_dims description link summary categories title tags notes
            is_favorite],
          files := insertFiles db (newEntry db now username user image_file
            pil_dims description link summary categories title tags notes
            is_favorite).file_path,
          nextId := db.nextId + 1 }) := by
  unfold insert_data
  rw [hu]

/-- C1: a successful create followed by a lookup of the fresh id returns a row
whose stored categories and tags are the comma-joined serialization of a list
input and the unchanged text of a text input. The freshness hypothesis is the
AUTOINCREMENT invariant of the id column. -/
theorem C1_create_then_get (db : DB) (now : Nat) (username : String)
    (image_file : Option ImageFile) (pil_dims : Option (Int × Int))
    (description link summary : String) (categories : StrOrList)
    (title : String) (tags : StrOrList) (notes : String) (is_favorite : Bool)
    (hfresh : ∀ e ∈ db.entries, e.id < db.nextId)
    (hok : (insert_data db now username image_file pil_dims description link
      summary categories title tags notes is_favorite).1.1 = true) :
    ∃ e, get_entry_by_id (insert_data db now username image_file pil_dims
        description link summary categories title tags notes
        is_favorite).2 db.nextId none = some e
      ∧ e.categories = some (match categories with
          | .str s => s
          | .list l => String.intercalate ", " l)
      ∧ e.tags = some (match tags with
          | .str s => s
          | .list l => String.intercalate ", " l) := by
  rcases hu : get_user_by_username db username with _ | user
  · unfold insert_data at hok
    rw [hu] at hok
    exact absurd hok (by simp)
  · rw [insert_data_ok db now username image_file pil_dims description link
      summary categories title tags notes is_favorite user hu]
    unfold get_entry_by_id
    rw [List.find?_append]
    have hnone : db.entries.find?
        (fun e => e.id == db.nextId && ownerOk none e) = none := by
      rw [List.find?_eq_none]
      intro e he
      simp only [ownerOk, Bool.and_true, beq_iff_eq]
      exact Nat.ne_of_lt (hfresh e he)
    rw [hnone, Option.none_or]
    have hpred : ((newEntry db now username user image_file pil_dims
        description link summary categories title tags notes
        is_favorite).id == db.nextId
        && ownerOk none (newEntry db now username user image_file pil_dims
          description link summary categories title tags notes
          is_favorite)) = true := by
      simp only [ownerOk, Bool.and_true]
      exact beq_iff_eq.mpr rfl
    have hsome : List.find? (fun e => e.id == db.nextId && ownerOk none e)
        [newEntry db now username user image_file pil_dims description link
          summary categories title tags notes is_favorite]
        = some (newEntry db now username user image_file pil_dims description
            link summary categories title tags notes is_favorite) :=
      List.find?_cons_of_pos _ hpred
    rw [hsome]
    refine ⟨_, rfl, ?_, ?_⟩
    · cases categories <;> rfl
    · cases tags <;> rfl

/-- Witness for C1: creating for alice with a list of categories and a text of
tags, then fetching the fresh id 1, returns the comma-joined list and the
unchanged text. -/
theorem C1_witness :
    ∃ e, get_entry_by_id (insert_data emptyDB 5 "alice" none none "" "" "cap"
        (StrOrList.list ["a", "b"]) "t" (StrOrList.str "x, y") "" false).2
        1 none = some e
      ∧ e.categories = some "a, b"
      ∧ e.tags = some "x, y" := by
  have h := C1_create_then_get emptyDB 5 "alice" none none "" "" "cap"
    (StrOrList.list ["a", "b"]) "t" (StrOrList.str "x, y") "" false
    (by intro e he; cases he) (by decide)
  exact h

/-- C10: every successful create stores the empty string in link_summary no
matter which summary was supplied, and stores the summary argument in the
image_caption column. -/
theorem C10_insert_caption_mismatch (db : DB) (now : Nat) (username : String)
    (image_file : Option ImageFile) (pil_dims : Option (Int × Int))
    (description link summary : String) (categories : StrOrList)
    (title : String) (tags : StrOrList) (notes : String) (is_favorite : Bool)
    (hok : (insert_data db now username image_file pil_dims description link
      summary categories title tags notes is_favorite).1.1 = true) :
    ∃ e, (insert_data db now username image_file pil_dims description link
        summary categories title tags notes is_favorite).2.entries
        = db.entries ++ [e]
      ∧ e.link_summary = some ""
      ∧ e.image_caption = some summary := by
  rcases hu : get_user_by_username db username with _ | user
  · unfold insert_data at hok
    rw [hu] at hok
    exact absurd hok (by simp)
  · rw [insert_data_ok db now username image_file pil_dims description link
      summary categories title tags notes is_favorite user hu]
    exact ⟨_, rfl, rfl, rfl⟩

/-- Witness for C10: a create supplying the summary cap stores an empty link
summary and cap as the image caption. -/
theorem C10_witness :
    ∃ e, (insert_data emptyDB 5 "alice" none none "" "" "cap"
        (StrOrList.str "") "" (StrOrList.str "") "" false).2.entries
        = emptyDB.entries ++ [e]
      ∧ e.link_summary = some ""
      ∧ e.image_caption = some "cap" :=
  C10_insert_caption_mismatch emptyDB 5 "alice" none none "" "" "cap"
    (StrOrList.str "") "" (StrOrList.str "") "" false (by decide)

theorem searchCond_archived_split (username q cat tag : String) (fav : Bool)
    (e : Entry) :
    searchCond username q cat tag fav true e
      = (searchCond username q cat tag fav false e
          && (e.is_archived == some 0 || e.is_archived == none)) := by
  unfold searchCond
  cases (e.is_archived == some 0 || e.is_archived == none) <;> simp

/-- C5: a search excluding archived entries never returns a row whose archived
flag is set, and a row whose archived flag is NULL that the search without the
exclusion returns is also returned with the exclusion on. -/
theorem C5_search_exclude_archived (db : DB) (username q cat tag : String)
    (fav : Bool) (e : Entry) :
    (e ∈ search_entries db username q cat tag fav true →
      e.is_archived = some 0 ∨ e.is_archived = none)
    ∧ (e.is_archived = none →
      e ∈ search_entries db username q cat tag fav false →
      e ∈ search_entries db username q cat tag fav true) := by
  constructor
  · intro h
    simp only [search_entries, List.mem_insertionSort, List.mem_filter] at h
    have hc := h.2
    rw [searchCond_archived_split] at hc
    rcases Bool.and_eq_true_iff.mp hc with ⟨_, harch⟩
    simpa using harch
  · intro hnull h
    simp only [search_entries, List.mem_insertionSort, List.mem_filter]
      at h ⊢
    refine ⟨h.1, ?_⟩
    rw [searchCond_archived_split]
    refine Bool.and_eq_true_iff.mpr ⟨h.2, ?_⟩
    simp [hnull]

/-- Witness for C5: the NULL-archived row is returned by the plain search and
by the search excluding archived rows. -/
theorem C5_witness :
    archNullEntry ∈ search_entries archDB "alice" "" "" "" false true :=
  (C5_search_exclude_archived archDB "alice" "" "" "" false
    archNullEntry).2 rfl (by decide)

/-- C6, amended: for a query free of the LIKE wildcard characters percent and
underscore, the search with only a query filter returns exactly the rows of the owner in which the query occurs ASCII-case-insensitively as a substring of at
least one of title, description, image caption, filename, tags, or notes. For
a query containing a wildcard the original claim fails, see the
counterexample. -/
theorem C6_search_query_substring (db : DB) (username q : String) (e : Entry)
    (hq0 : q ≠ "")
    (hq : ∀ c ∈ q.toList, c ≠ '%' ∧ c ≠ '_') :
    e ∈ search_entries db username q "" "" false false ↔
      e ∈ db.entries ∧ e.username = username ∧
        (ciSub q e.title ∨ ciSub q e.description ∨ ciSub q e.image_caption
          ∨ ciSub q e.filename ∨ ciSub q e.tags ∨ ciSub q e.notes) := by
  simp only [search_entries, List.mem_insertionSort, List.mem_filter]
  have hqb : (q == "") = false := by
    simpa using hq0
  have hcond : searchCond username q "" "" false false e = true ↔
      (e.username = username ∧
        (ciSub q e.title ∨ ciSub q e.description ∨ ciSub q e.image_caption
          ∨ ciSub q e.filename ∨ ciSub q e.tags ∨ ciSub q e.notes)) := by
    unfold searchCond
    simp only [hqb, Bool.false_or, beq_self_eq_true, Bool.true_or,
      Bool.not_false, Bool.or_true, Bool.and_true, Bool.true_and,
      Bool.and_eq_true, beq_iff_eq, Bool.or_eq_true,
      likeField_iff q e.title hq, likeField_iff q e.description hq,
      likeField_iff q e.image_caption hq, likeField_iff q e.filename hq,
      likeField_iff q e.tags hq, likeField_iff q e.notes hq]
    tauto
  exact and_congr_right (fun _ => hcond)

/-- Witness for C6: the upper-cased query LO WO is a case-insensitive
substring of the description Hello World, so the row is returned. -/
theorem C6_witness :
    helloEntry ∈ search_entries helloDB "alice" "LO WO" "" "" false false := by
  refine (C6_search_query_substring helloDB "alice" "LO WO" helloEntry
    (by decide) (by decide)).mpr ⟨by decide, rfl, ?_⟩
  exact Or.inr (Or.inl ⟨"Hello World", rfl, by decide⟩)

/-- Counterexample for C6 as stated: the query a_c is returned as a match of
the description abc through the LIKE underscore wildcard, although it is not a
case-insensitive substring of any of the six searched fields. -/
theorem C6_counterexample :
    wildcardEntry ∈ search_entries wildcardDB "alice" "a_c" "" "" false false
    ∧ ¬ ciSub "a_c" wildcardEntry.title
    ∧ ¬ ciSub "a_c" wildcardEntry.description
    ∧ ¬ ciSub "a_c" wildcardEntry.image_caption
    ∧ ¬ ciSub "a_c" wildcardEntry.filename
    ∧ ¬ ciSub "a_c" wildcardEntry.tags
    ∧ ¬ ciSub "a_c" wildcardEntry.notes := by decide

/-- C7, amended: the distinct-label queries return exactly the sorted
deduplicated trimmed comma-pieces of the non-empty stored label strings of the
owner (an empty stored label string is skipped entirely, which is where the
original claim fails, see the counterexample); on the two-row example of the spec
the result is exactly a, b, c. -/
theorem C7_distinct_labels (db : DB) (username : String) :
    get_all_categories db username
      = specDistinctLabels
          ((storedCategories db username).filter (fun s => s != ""))
    ∧ get_all_tags db username
      = specDistinctLabels ((storedTags db username).filter (fun s => s != ""))
    ∧ get_all_categories labelsDB "alice" = ["a", "b", "c"] := by
  refine ⟨?_, ?_, by decide⟩
  · simp only [get_all_categories, specDistinctLabels]
    apply sortedDistinct_eq_of_mem_iff
    intro s
    simp only [List.mem_flatMap, List.mem_filter, List.mem_dedup]
  · simp only [get_all_tags, specDistinctLabels]
    apply sortedDistinct_eq_of_mem_iff
    intro s
    simp only [List.mem_flatMap, List.mem_filter, List.mem_dedup]

/-- Counterexample for C7 as stated: on a store whose only entry carries an
empty categories string, the query returns nothing, while splitting every
stored label string on commas and trimming yields the empty label. -/
theorem C7_counterexample :
    get_all_categories emptyLabelDB "alice"
      ≠ specDistinctLabels (storedCategories emptyLabelDB "alice") := by
  decide
